import Mathlib

/-!
Verification of the ironnes NES emulator core against its specification.

The Rust sources are shallowly embedded: machine bytes and 16-bit addresses
are represented as `Nat` with explicit masking / modular arithmetic where the
Rust types (`u8`, `u16`) overflow or truncate; fallible Rust functions
(returning `IronNesResult`) become `Except IronNesError`; a Rust index
expression that can panic is modelled with an outer `Option` layer where
`none` stands for the panic.
-/

deriving instance DecidableEq for Except

namespace IronNes

/-- Error enum from src/error.rs (the `Other(io::Error)` variant carries
process-level I/O failures and is irrelevant to the emulation core). -/
inductive IronNesError where
  | CartridgeError : IronNesError
  | MemoryError (msg : String) : IronNesError
  | IllegalInstruction : IronNesError
deriving DecidableEq, Repr

/-- Addressing-mode tag set from src/src/nes/cpu/addressing.rs. -/
inductive AddressingMode where
  | Implied
  | Accumulator
  | Immediate
  | Absolute
  | AbsoluteX
  | AbsoluteY
  | Indirect
  | IndirectX
  | IndirectY
  | ZeroPage
  | ZeroPageX
  | ZeroPageY
  | Relative
  | Illegal
  | Unknown
deriving DecidableEq, Repr

/-- Instruction descriptor from src/src/nes/cpu/instruction.rs. -/
structure Instruction where
  opcode : Nat
  mnemonic : String
  bytes : Nat
  cycles : Nat
  can_cross_page : Bool
  addr_mode : AddressingMode
deriving DecidableEq, Repr

/-- `Instruction::illegal` from src/src/nes/cpu/instruction.rs:42-51. -/
def Instruction.illegal (opcode : Nat) : Instruction :=
  { opcode := opcode
    mnemonic := "ILLEGAL"
    bytes := 1
    cycles := 0
    can_cross_page := false
    addr_mode := AddressingMode.Illegal }

/-- The generated `lookup_instr` from src/build.rs:23-62: one `match` arm per
row of the legal table followed by one per row of the unofficial table (a
Rust `match` takes the first matching arm), with the default arm
`_ => Instruction::illegal(opcode)`.  The two CSV source tables are not part
of the repository snapshot, so the lookup is parametric in them. -/
def lookupInstr (legal unofficial : List (Nat × Instruction)) (opcode : Nat) :
    Instruction :=
  match (legal ++ unofficial).find? (fun e => e.1 = opcode) with
  | some e => e.2
  | none => Instruction.illegal opcode

/-! Bit utilities from src/src/bitset.rs.  All values are `u8`; the Rust
complement `!(1 << posn)` is `255 ^^^ (1 <<< posn)` for `posn < 8`. -/

/-- `bit_toggle` from src/src/bitset.rs:4-8. -/
def bit_toggle (v state posn : Nat) : Nat :=
  (v &&& (255 ^^^ (1 <<< posn))) ||| ((state &&& 1) <<< posn)

/-- `bit_get` from src/src/bitset.rs:10-12. -/
def bit_get (v posn : Nat) : Bool :=
  v &&& (1 <<< posn) != 0

/-- Status-flag positions from src/src/nes/cpu/register.rs (enum `Flags`). -/
inductive Flag where
  | C | Z | I | D | B | V | N
deriving DecidableEq, Repr

/-- Discriminant values of the `Flags` enum. -/
def Flag.posn : Flag → Nat
  | .C => 0
  | .Z => 1
  | .I => 2
  | .D => 3
  | .B => 4
  | .V => 6
  | .N => 7

/-- CPU register file from src/src/nes/cpu/register.rs; the status `BitSet`
is represented by its backing byte. -/
structure Registers where
  pc : Nat
  sp : Nat
  a : Nat
  x : Nat
  y : Nat
  flags : Nat
deriving DecidableEq, Repr

/-- `Registers::get_flag`. -/
def Registers.get_flag (r : Registers) (f : Flag) : Bool :=
  bit_get r.flags f.posn

/-- `Registers::set_flag`: route the boolean through the bitset set/clear
pair, which is `bit_toggle` with state 1 resp. 0. -/
def Registers.set_flag (r : Registers) (f : Flag) (s : Bool) : Registers :=
  { r with flags := bit_toggle r.flags (if s then 1 else 0) f.posn }

/-- `Registers::set_n`. -/
def Registers.set_n (r : Registers) (x : Nat) : Registers :=
  r.set_flag .N (x &&& 0x80 != 0)

/-- `Registers::set_z`. -/
def Registers.set_z (r : Registers) (x : Nat) : Registers :=
  r.set_flag .Z (x == 0)

/-- `Registers::get_status`. -/
def Registers.get_status (r : Registers) : Nat := r.flags

/-- CPU state from src/src/nes/cpu/mod.rs (`pub struct Cpu`). -/
structure Cpu where
  cycle : Nat
  registers : Registers
deriving DecidableEq, Repr

/-- 16-bit wrapping subtraction (`u16::wrapping_sub`). -/
def wsub16 (a b : Nat) : Nat := (a + 65536 - b % 65536) % 65536

/-- 16-bit wrapping addition (`u16::wrapping_add`). -/
def wadd16 (a b : Nat) : Nat := (a + b) % 65536

/-- `Cpu::calc_page_cross_penalty` from src/src/nes/cpu/mod.rs:77-79. -/
def calc_page_cross_penalty (addr1 addr2 : Nat) : Nat :=
  if addr1 &&& 0xff00 != addr2 &&& 0xff00 then 1 else 0

/-- `pay_for_page_cross` from src/src/nes/cpu/mod.rs:130-151 (the source
returns `Ok(())` unconditionally, so the `Result` layer is dropped). -/
def pay_for_page_cross (cpu : Cpu) (instr : Instruction) (addr : Nat) : Cpu :=
  if instr.can_cross_page then
    let src_addr :=
      match instr.addr_mode with
      | .Relative => cpu.registers.pc
      | .AbsoluteX => wsub16 addr cpu.registers.x
      | .AbsoluteY | .IndirectY => wsub16 addr cpu.registers.y
      | _ => addr
    { cpu with cycle := cpu.cycle + calc_page_cross_penalty src_addr addr }
  else cpu

/-- The mode-dependent source address of the page-cross comparison, written
from the words of the specification (for comparison with the code path in
`pay_for_page_cross`): the pre-branch PC for Relative, the resolved address
minus X for AbsoluteX, the resolved address minus Y for AbsoluteY and
IndirectY, and the resolved address itself for every other mode. -/
def pageCrossSourceSpec (reg : Registers) (mode : AddressingMode)
    (resolved : Nat) : Nat :=
  match mode with
  | .Relative => reg.pc
  | .AbsoluteX => wsub16 resolved reg.x
  | .AbsoluteY => wsub16 resolved reg.y
  | .IndirectY => wsub16 resolved reg.y
  | _ => resolved

/-- `Cpu::jsr` from src/src/nes/cpu/mod.rs:81-87. -/
def Cpu.jsr (legal unofficial : List (Nat × Instruction)) (cpu : Cpu)
    (addr : Nat) : Cpu × Instruction :=
  let instr := lookupInstr legal unofficial 0x20
  ({ cpu with
      cycle := cpu.cycle + instr.cycles
      registers := { cpu.registers with pc := addr } },
   instr)

/-! Memory from src/src/nes/memory/mod.rs.  The five fixed-size `u8` arrays
are modelled as total functions from index to byte; every index the claims
exercise is within the Rust array bounds. -/

/-- Pointwise update of an array-as-function. -/
def updateFn (f : Nat → Nat) (i v : Nat) : Nat → Nat :=
  fun j => if j = i then v else f j

/-- Backing storage of `Memory` (ram 0x800, ppu_reg 8, other_reg 0x20,
rom_batt 0x2000, rom_prog 0x8000 bytes). -/
structure Memory where
  ram : Nat → Nat
  ppu_reg : Nat → Nat
  other_reg : Nat → Nat
  rom_batt : Nat → Nat
  rom_prog : Nat → Nat

/-- `MemoryAccess` from src/src/nes/memory/mod.rs:56-63. -/
inductive MemoryAccess where
  | RAM (a : Nat)
  | PPU (a : Nat)
  | REG (a : Nat)
  | ROMB (a : Nat)
  | ROMP (a : Nat)
  | ILLEGAL
deriving DecidableEq, Repr

/-- `Memory::translate_addr` from src/src/nes/memory/mod.rs:111-130; the
range-pattern match becomes a chain of interval tests in the same order. -/
def translate_addr (addr : Nat) : MemoryAccess :=
  if addr ≤ 0x1fff then .RAM (addr % 0x800)
  else if 0x2000 ≤ addr ∧ addr ≤ 0x3fff then .PPU ((addr - 0x2000) % 8)
  else if 0x4000 ≤ addr ∧ addr ≤ 0x401f then .REG (addr - 0x4000)
  else if 0x6000 ≤ addr ∧ addr ≤ 0x7fff then .ROMB (addr - 0x6000)
  else if 0x8000 ≤ addr ∧ addr ≤ 0xffff then .ROMP (addr - 0x8000)
  else .ILLEGAL

/-- `Memory::load` from src/src/nes/memory/mod.rs:132-146 (the formatted
address in the error text is rendered in decimal here). -/
def Memory.load (m : Memory) (addr : Nat) : Except IronNesError Nat :=
  match translate_addr addr with
  | .RAM a => .ok (m.ram a)
  | .PPU a => .ok (m.ppu_reg a)
  | .REG a => .ok (m.other_reg a)
  | .ROMB a => .ok (m.rom_batt a)
  | .ROMP a => .ok (m.rom_prog a)
  | .ILLEGAL => .error (.MemoryError ("Illegal load " ++ toString addr))

/-- `Memory::store` from src/src/nes/memory/mod.rs:148-161. -/
def Memory.store (m : Memory) (addr v : Nat) : Except IronNesError Memory :=
  match translate_addr addr with
  | .RAM a => .ok { m with ram := updateFn m.ram a v }
  | .PPU a => .ok { m with ppu_reg := updateFn m.ppu_reg a v }
  | .REG a => .ok { m with other_reg := updateFn m.other_reg a v }
  | .ROMB a => .ok { m with rom_batt := updateFn m.rom_batt a v }
  | .ROMP a => .ok { m with rom_prog := updateFn m.rom_prog a v }
  | .ILLEGAL => .error (.MemoryError ("Illegal store " ++ toString addr))

/-- `Memory::get_high_addr` from src/src/nes/memory/mod.rs:163-168: the
same-page wrap applies only under the range guard `0..=MEM_RAM_END`
(MEM_RAM_END = 0x1fff); every other address gets `wrapping_add(1)`. -/
def Memory.get_high_addr (addr : Nat) : Nat :=
  if addr ≤ 0x1fff ∧ addr &&& 0xff = 0xff then addr &&& 0xff00
  else (addr + 1) % 65536

/-- `Memory::load16` from src/src/nes/memory/mod.rs:170-174
(`u16::from_le_bytes [lo, hi]` is `lo + 256 * hi`). -/
def Memory.load16 (m : Memory) (addr : Nat) : Except IronNesError Nat := do
  let lo ← m.load addr
  let hi ← m.load (Memory.get_high_addr addr)
  pure (lo + 256 * hi)

/-- `Memory::store16` from src/src/nes/memory/mod.rs:176-182. -/
def Memory.store16 (m : Memory) (addr val : Nat) : Except IronNesError Memory := do
  let m1 ← m.store addr (val % 256)
  m1.store (Memory.get_high_addr addr) ((val >>> 8) % 256)

/-- `Memory::stack_push` from src/src/nes/memory/mod.rs:195-204.  The Rust
signature mutates `&mut self` and `&mut sp`; both are returned explicitly,
and the error branch returns them unchanged exactly as the source mutates
nothing before returning the error. -/
def Memory.stack_push (m : Memory) (sp val : Nat) :
    Except IronNesError Unit × Memory × Nat :=
  if sp = 0 then (.error (.MemoryError "Stack Overflow"), m, sp)
  else (.ok (), { m with ram := updateFn m.ram (0x100 + sp) val }, sp - 1)

/-- `Memory::stack_pop` from src/src/nes/memory/mod.rs:206-216
(MEM_STACK_END - MEM_STACK_BEGIN = 0xff; increment happens before the
read). -/
def Memory.stack_pop (m : Memory) (sp : Nat) :
    Except IronNesError Nat × Memory × Nat :=
  if sp = 0xff then (.error (.MemoryError "Stack Underflow"), m, sp)
  else (.ok (m.ram (0x100 + (sp + 1))), m, sp + 1)

/-- Success test for `Except` results. -/
def resultIsOk : Except ε α → Bool
  | .ok _ => true
  | .error _ => false

/-- An all-zero memory, used to instantiate witnesses. -/
def zeroMemory : Memory :=
  { ram := fun _ => 0, ppu_reg := fun _ => 0, other_reg := fun _ => 0,
    rom_batt := fun _ => 0, rom_prog := fun _ => 0 }

/-- Modelled from the spec: the free functions `cpu_load`, `cpu_store`,
`cpu_load16` and `cpu_store16` invoked across src/src/nes/cpu are imported
from `crate::nes::memory` but their definitions are absent from the
snapshot; per the specification a CPU load/store forwards the access to
the memory map and a 16-bit access "is composed from two 8-bit accesses"
with the same-page wrap quirk, i.e. exactly `Memory::load` / `Memory::store`
/ `Memory::load16` of src/src/nes/memory/mod.rs, to which they delegate
here. -/
def cpu_load (m : Memory) (addr : Nat) : Except IronNesError Nat :=
  m.load addr

/-- Modelled from the spec: 16-bit companion of `cpu_load`, see there. -/
def cpu_load16 (m : Memory) (addr : Nat) : Except IronNesError Nat :=
  m.load16 addr

/-- Modelled from the spec: store companion of `cpu_load`, see there. -/
def cpu_store (m : Memory) (addr v : Nat) : Except IronNesError Memory :=
  m.store addr v

/-- `AddressingMode::load_operand` from src/src/nes/cpu/addressing.rs:53-98.
`reg.pc - 1` / `reg.pc - 2` are 16-bit subtractions, zero-page arithmetic
wraps at a byte (`u8::wrapping_add` then `& 0xff`), and the Relative
displacement reproduces the sign-extension trick
`((x as i16) ^ 0x80) - 0x80` as `u16`. -/
def AddressingMode.load_operand (mode : AddressingMode) (reg : Registers)
    (m : Memory) : Except IronNesError Nat :=
  match mode with
  | .Accumulator => .ok reg.a
  | .Immediate => cpu_load m (wsub16 reg.pc 1)
  | .Absolute => cpu_load16 m (wsub16 reg.pc 2)
  | .AbsoluteX => do
      pure (wadd16 reg.x (← cpu_load16 m (wsub16 reg.pc 2)))
  | .AbsoluteY => do
      pure (wadd16 reg.y (← cpu_load16 m (wsub16 reg.pc 2)))
  | .ZeroPage => cpu_load m (wsub16 reg.pc 1)
  | .ZeroPageX => do
      pure ((((← cpu_load m (wsub16 reg.pc 1)) + reg.x) % 256) &&& 0xff)
  | .ZeroPageY => do
      pure ((((← cpu_load m (wsub16 reg.pc 1)) + reg.y) % 256) &&& 0xff)
  | .Indirect => do
      cpu_load16 m (← cpu_load16 m (wsub16 reg.pc 2))
  | .IndirectX => do
      let addr ← cpu_load m (wsub16 reg.pc 1)
      cpu_load16 m (wadd16 addr reg.x &&& 0xff)
  | .IndirectY => do
      let imm ← cpu_load m (wsub16 reg.pc 1)
      pure (wadd16 (← cpu_load16 m imm) reg.y)
  | .Relative => do
      let x ← cpu_load m (wsub16 reg.pc 1)
      pure (wadd16 reg.pc (((x ^^^ 0x80) + 65536 - 0x80) % 65536))
  | _ => .error .IllegalInstruction

/-! Bus from src/src/nes/bus/mod.rs. -/

/-- The devices `Bus::cpu_map` can route a CPU access to. -/
inductive CpuDevice where
  | cpuZeropage
  | ppuReg
  | cpuOamDmaReg
  | joystick
  | cartridgeRom
  | cartridgeMapper
deriving DecidableEq, Repr

/-- The bus fields `cpu_map` consults: `cartridge_rom_offset` (0xc000 for a
one-bank cartridge, 0x8000 for two banks, enforced by `Bus::new`) and
whether `cartridge_mapper` is `Some`. -/
structure BusCfg where
  cartridge_rom_offset : Nat
  has_mapper : Bool
deriving DecidableEq, Repr

/-- `Bus::cpu_map` from src/src/nes/bus/mod.rs:83-109; match arms become a
chain of interval tests in source order. -/
def Bus.cpu_map (b : BusCfg) (addr : Nat) :
    Except IronNesError (Nat × CpuDevice) :=
  if addr ≤ 0x1fff then .ok (addr % 0x800, .cpuZeropage)
  else if 0x2000 ≤ addr ∧ addr ≤ 0x3fff then .ok (addr % 8, .ppuReg)
  else if addr = 0x4014 then .ok (0, .cpuOamDmaReg)
  else if 0x4016 ≤ addr ∧ addr ≤ 0x4017 then .ok (addr - 0x4016, .joystick)
  else if 0x8000 ≤ addr ∧ addr ≤ 0xffff ∧ b.cartridge_rom_offset = 0x8000 then
    .ok (addr - b.cartridge_rom_offset, .cartridgeRom)
  else if 0x8000 ≤ addr ∧ addr ≤ 0xffff ∧ b.cartridge_rom_offset = 0xc000 then
    if addr < b.cartridge_rom_offset then
      if b.has_mapper then .ok (addr - 0x8000, .cartridgeMapper)
      else .error (.MemoryError "No mapper inserted")
    else .ok (addr - b.cartridge_rom_offset, .cartridgeRom)
  else .error (.MemoryError "Memory access to unmapped vrom")

/-- `MemoryMapped::load` of `MemoryMappedRam`, identical in
src/src/nes/bus/mod.rs:144-154 and src/src/nes/bus/memory_mapped.rs:34-44.
The bounds check is `addr > self.0.len()`; when it passes, the source
indexes `self.0[addr]`, which panics when `addr` equals the length — the
outer `Option` models that panic as `none`. -/
def MemoryMappedRam.load (ram : List Nat) (addr : Nat) :
    Option (Except IronNesError Nat) :=
  if addr > ram.length then some (.error (.MemoryError "load out of range"))
  else (ram.get? addr).map (fun v => .ok v)

/-- `MemoryMapped::store` of `MemoryMappedRam`, same sources as
`MemoryMappedRam.load`; same off-by-one panic surface at
`addr = ram.length`. -/
def MemoryMappedRam.store (ram : List Nat) (addr data : Nat) :
    Option (Except IronNesError (List Nat)) :=
  if addr > ram.length then some (.error (.MemoryError "store out of range"))
  else if addr < ram.length then some (.ok (ram.set addr data))
  else none

/-! Cartridge from src/src/nes/cartridge.rs. -/

/-- `MirrorDirection`, src/src/nes/cartridge.rs:191-202. -/
inductive MirrorDirection where
  | Vertical
  | Horizontal
  | FourScreen
deriving DecidableEq, Repr

/-- `CartridgeRegion`, src/src/nes/cartridge.rs:204-214. -/
inductive CartridgeRegion where
  | PAL
  | NTSC
deriving DecidableEq, Repr

/-- `Cartridge`, src/src/nes/cartridge.rs:9-19. -/
structure Cartridge where
  num_prog_rom : Nat
  num_ppu_vrom : Nat
  num_ram : Nat
  mirror : MirrorDirection
  has_battery : Bool
  has_trainer : Bool
  mapper : Nat
  region : CartridgeRegion
deriving DecidableEq, Repr

/-- `Cartridge::from_header` from src/src/nes/cartridge.rs:83-129 over a
16-byte header (indexing via `getD` is in bounds for such headers).  Note
the source computes `c.mapper = ((b6 & 0xf0) >> 4) & b7 & 0xf0`. -/
def Cartridge.from_header (h : List Nat) : Except IronNesError Cartridge :=
  if ¬ (h.getD 0 0 = 0x4e ∧ h.getD 1 0 = 0x45 ∧ h.getD 2 0 = 0x53 ∧
        h.getD 3 0 = 0x1a) then
    .error .CartridgeError
  else if h.getD 7 0 &&& 0b1110 ≠ 0 ∨ h.getD 9 0 &&& 0b11111110 ≠ 0 then
    .error .CartridgeError
  else
    let mapper := ((h.getD 6 0 &&& 0xf0) >>> 4) &&& h.getD 7 0 &&& 0xf0
    if mapper ≠ 0 then .error .CartridgeError
    else
      .ok { num_prog_rom := h.getD 4 0
            num_ppu_vrom := h.getD 5 0
            num_ram := h.getD 8 0
            mirror :=
              if h.getD 6 0 &&& 0b1000 ≠ 0 then .FourScreen
              else if h.getD 6 0 &&& 1 ≠ 0 then .Vertical
              else .Horizontal
            has_battery := h.getD 6 0 &&& 0b10 > 0
            has_trainer := h.getD 6 0 &&& 0b100 > 0
            mapper := mapper
            region := if h.getD 9 0 &&& 1 = 1 then .PAL else .NTSC }

/-- The mapper id of an iNES header as the specification describes it: the
high nibble of byte 6 gives the low four bits, the high nibble of byte 7
the high four bits. -/
def headerMapperId (h : List Nat) : Nat :=
  ((h.getD 6 0 &&& 0xf0) >>> 4) ||| (h.getD 7 0 &&& 0xf0)

/-- `fetch_operand` from src/src/nes/cpu/mod.rs:153-174: pay the page-cross
penalty, then for the memory-addressed modes load the byte at the resolved
address, otherwise return the resolved value truncated to a byte
(`addr as u8`). -/
def fetch_operand (cpu : Cpu) (instr : Instruction) (m : Memory)
    (addr : Nat) : Except IronNesError (Cpu × Nat) :=
  let cpu1 := pay_for_page_cross cpu instr addr
  match instr.addr_mode with
  | .Absolute | .AbsoluteX | .AbsoluteY | .ZeroPage | .ZeroPageX
  | .ZeroPageY | .Indirect | .IndirectX | .IndirectY =>
      (cpu_load m addr).map (fun v => (cpu1, v))
  | _ => .ok (cpu1, addr % 256)

/-- `adc_execute` from src/src/nes/cpu/mod.rs:256-284.  A set Decimal flag
only triggers a diagnostic log line in the source ("DCB not supported on
NES, using int math"); the arithmetic is unconditional.  The 16-bit
intermediate sum and the overflow computation follow the source
bit-for-bit. -/
def adc_execute (instr : Instruction) (cpu : Cpu) (m : Memory) :
    Except IronNesError (Cpu × Memory) := do
  let s0 ← instr.addr_mode.load_operand cpu.registers m
  let (cpu1, s) ← fetch_operand cpu instr m s0
  let a := cpu1.registers.a
  let c := if cpu1.registers.get_flag .C then 1 else 0
  let sum := a + s + c
  let reg0 := { cpu1.registers with a := sum % 256 }
  let l := decide ((a ^^^ sum) &&& 0x80 ≠ 0)
  let r := decide ((a ^^^ s) &&& 0x80 ≠ 0)
  let v := !r && l
  let reg1 := reg0.set_z (sum &&& 0xff)
  let reg2 := reg1.set_flag .C (decide (sum &&& 0xff00 ≠ 0))
  let reg3 := reg2.set_flag .V v
  let reg4 := reg3.set_n sum
  pure ({ cpu1 with registers := reg4 }, m)

/-- `sbc_execute` from src/src/nes/cpu/mod.rs:287-315.  The borrow is the
negated Carry flag; the signed 16-bit difference cast back to `u16` is the
integer difference taken mod 2^16. -/
def sbc_execute (instr : Instruction) (cpu : Cpu) (m : Memory) :
    Except IronNesError (Cpu × Memory) := do
  let s0 ← instr.addr_mode.load_operand cpu.registers m
  let (cpu1, s) ← fetch_operand cpu instr m s0
  let a := cpu1.registers.a
  let c := if cpu1.registers.get_flag .C then 0 else 1
  let sum := (((a : Int) - (s : Int) - (c : Int)) % 65536).toNat
  let reg0 := { cpu1.registers with a := sum % 256 }
  let l := decide ((a ^^^ sum) &&& 0x80 ≠ 0)
  let r := decide ((a ^^^ s) &&& 0x80 ≠ 0)
  let v := r && l
  let reg1 := reg0.set_z (sum &&& 0xff)
  let reg2 := reg1.set_flag .C (decide (sum < 0x100))
  let reg3 := reg2.set_flag .V v
  let reg4 := reg3.set_n sum
  pure ({ cpu1 with registers := reg4 }, m)

/-- Observable agreement of two execute outcomes: both fail with the same
error, or both succeed with the same accumulator, the same memory, and the
same Carry, Zero, Overflow and Negative flags. -/
def sameOutcome (o1 o2 : Except IronNesError (Cpu × Memory)) : Prop :=
  match o1, o2 with
  | .ok (c1, m1), .ok (c2, m2) =>
      c1.registers.a = c2.registers.a ∧ m1 = m2 ∧
      c1.registers.get_flag .C = c2.registers.get_flag .C ∧
      c1.registers.get_flag .Z = c2.registers.get_flag .Z ∧
      c1.registers.get_flag .V = c2.registers.get_flag .V ∧
      c1.registers.get_flag .N = c2.registers.get_flag .N
  | .error e1, .error e2 => e1 = e2
  | _, _ => False

/-! `BiasedBitSet` from src/src/bitset.rs:38-85. -/

/-- Biased bit container: stored value `v` plus the two bias masks. -/
structure BiasedBitSet where
  v : Nat
  set0 : Nat
  set1 : Nat
deriving DecidableEq, Repr

/-- `BiasedBitSet::sanitize`: tie the value to the biased bits. -/
def BiasedBitSet.sanitize (s : BiasedBitSet) (x : Nat) : Nat :=
  (x &&& s.set0) ||| s.set1

/-- `BiasedBitSet::store`. -/
def BiasedBitSet.store (s : BiasedBitSet) (x : Nat) : BiasedBitSet :=
  { s with v := s.sanitize x }

/-- `BiasedBitSet::bias`: only `v & 1` matters; a 0-bias clears the bit in
`set0`, a 1-bias sets it in `set1`, and the stored value is re-sanitized
against the updated masks. -/
def BiasedBitSet.bias (s : BiasedBitSet) (bit v : Nat) : BiasedBitSet :=
  let w := v &&& 1
  let s1 : BiasedBitSet :=
    { s with
        set0 := s.set0 &&& (255 ^^^ ((w ^^^ 1) <<< bit))
        set1 := s.set1 ||| (w <<< bit) }
  { s1 with v := s1.sanitize s.v }

/-- `BiasedBitSet::set`. -/
def BiasedBitSet.set (s : BiasedBitSet) (idx val : Nat) : BiasedBitSet :=
  { s with v := s.sanitize (bit_toggle s.v val idx) }

/-- `BiasedBitSet::get`. -/
def BiasedBitSet.get (s : BiasedBitSet) (idx : Nat) : Bool :=
  bit_get s.v idx

/-- `BiasedBitSet::cast`. -/
def BiasedBitSet.cast (s : BiasedBitSet) : Nat := s.v

/-- `Default for BiasedBitSet` (src/src/bitset.rs:77-85). -/
def BiasedBitSet.init : BiasedBitSet :=
  { v := 0, set0 := 0xff, set1 := 0 }

/-- One client call against a `BiasedBitSet`. -/
inductive BOp where
  | store (v : Nat)
  | set (idx val : Nat)
  | bias (bit v : Nat)
deriving DecidableEq, Repr

/-- Apply one call. -/
def BiasedBitSet.apply (s : BiasedBitSet) : BOp → BiasedBitSet
  | .store x => s.store x
  | .set idx val => s.set idx val
  | .bias bit v => s.bias bit v

/-- Run a call sequence from a given state. -/
def runFrom (s : BiasedBitSet) (ops : List BOp) : BiasedBitSet :=
  ops.foldl BiasedBitSet.apply s

/-- Run a call sequence from the `Default` state. -/
def runOps (ops : List BOp) : BiasedBitSet :=
  runFrom BiasedBitSet.init ops

/-- Does this single call bias position `b` to 1? -/
def opBias1 (op : BOp) (b : Nat) : Bool :=
  match op with
  | .bias bit v => decide (bit = b) && decide (v &&& 1 = 1)
  | _ => false

/-- Does this single call bias position `b` to 0? -/
def opBias0 (op : BOp) (b : Nat) : Bool :=
  match op with
  | .bias bit v => decide (bit = b) && decide (v &&& 1 = 0)
  | _ => false

/-- Did the sequence ever bias position `b` to 1? -/
def everBiased1 (ops : List BOp) (b : Nat) : Bool :=
  ops.any (fun op => opBias1 op b)

/-- Did the sequence ever bias position `b` to 0? -/
def everBiased0 (ops : List BOp) (b : Nat) : Bool :=
  ops.any (fun op => opBias0 op b)

/-- The bias value most recently applied to position `b`, if any — i.e.
what the position is currently biased to. -/
def lastBias (ops : List BOp) (b : Nat) : Option Nat :=
  ops.foldl
    (fun acc op =>
      match op with
      | .bias bit v => if bit = b then some (v &&& 1) else acc
      | _ => acc)
    none

end IronNes

namespace IronNes

/-- C1: for every opcode absent from both the legal and the unofficial
table, the generated lookup returns the Illegal sentinel descriptor: byte
length 1, 0 base cycles, no page-cross flag, addressing mode Illegal —
never a missing entry or failure. -/
theorem lookup_total_illegal_default (legal unofficial : List (Nat × Instruction))
    (op : Nat) (hop : op < 256)
    (hleg : ∀ e ∈ legal, e.1 ≠ op) (hun : ∀ e ∈ unofficial, e.1 ≠ op) :
    lookupInstr legal unofficial op =
      { opcode := op, mnemonic := "ILLEGAL", bytes := 1, cycles := 0,
        can_cross_page := false, addr_mode := AddressingMode.Illegal } := by
  have hfind : (legal ++ unofficial).find? (fun e => e.1 = op) = none := by
    rw [List.find?_eq_none]
    intro e he
    rcases List.mem_append.mp he with h | h
    · simpa using hleg e h
    · simpa using hun e h
  simp [lookupInstr, hfind, Instruction.illegal]

/-- Witness for C1 at concrete tables and opcode 0x03 (present in neither
table). -/
theorem lookup_total_illegal_default_witness :
    lookupInstr
      [(0x20, { opcode := 0x20, mnemonic := "JSR", bytes := 3, cycles := 6,
                can_cross_page := false, addr_mode := AddressingMode.Absolute })]
      [(0xa7, { opcode := 0xa7, mnemonic := "*LAX", bytes := 2, cycles := 3,
                can_cross_page := false, addr_mode := AddressingMode.ZeroPage })]
      0x03 =
      { opcode := 0x03, mnemonic := "ILLEGAL", bytes := 1, cycles := 0,
        can_cross_page := false, addr_mode := AddressingMode.Illegal } :=
  lookup_total_illegal_default _ _ 0x03 (by decide)
    (by intro e he; simp at he; simp [he]) (by intro e he; simp at he; simp [he])

/-- C5: with the page-cross flag set, operand handling adds exactly one
cycle when the mode-dependent source address and the resolved address
differ in their high byte, and zero otherwise; without the flag no penalty
is ever added.  The registers are untouched either way. -/
theorem page_cross_penalty_rule (cpu : Cpu) (instr : Instruction) (addr : Nat) :
    (pay_for_page_cross cpu instr addr).cycle =
      cpu.cycle +
        (if instr.can_cross_page ∧
            pageCrossSourceSpec cpu.registers instr.addr_mode addr &&& 0xff00 ≠
              addr &&& 0xff00
         then 1 else 0) ∧
    (pay_for_page_cross cpu instr addr).registers = cpu.registers := by
  unfold pay_for_page_cross pageCrossSourceSpec calc_page_cross_penalty
  cases hc : instr.can_cross_page <;>
    cases instr.addr_mode <;>
      simp [hc] <;> split <;> simp_all

/-- C10: `Cpu::jsr(addr)` (as exposed by `IronNes::jsr`) sets the program
counter to `addr`, adds exactly the looked-up JSR descriptor's base cycle
count, and leaves A, X, Y, SP and the status byte unchanged; it takes no
bus or memory argument at all, so no memory is accessed and in particular
no return address is pushed. -/
theorem jsr_frame_effect (legal unofficial : List (Nat × Instruction))
    (cpu : Cpu) (addr : Nat) (jsrD : Instruction)
    (hlk : lookupInstr legal unofficial 0x20 = jsrD) :
    (Cpu.jsr legal unofficial cpu addr).1.registers.pc = addr ∧
    (Cpu.jsr legal unofficial cpu addr).1.cycle = cpu.cycle + jsrD.cycles ∧
    (Cpu.jsr legal unofficial cpu addr).1.registers.a = cpu.registers.a ∧
    (Cpu.jsr legal unofficial cpu addr).1.registers.x = cpu.registers.x ∧
    (Cpu.jsr legal unofficial cpu addr).1.registers.y = cpu.registers.y ∧
    (Cpu.jsr legal unofficial cpu addr).1.registers.sp = cpu.registers.sp ∧
    (Cpu.jsr legal unofficial cpu addr).1.registers.flags = cpu.registers.flags ∧
    (Cpu.jsr legal unofficial cpu addr).2 = jsrD := by
  subst hlk
  simp [Cpu.jsr]

/-- Witness for C10 at a concrete table, CPU state and target address. -/
theorem jsr_frame_effect_witness :
    (Cpu.jsr
        [(0x20, { opcode := 0x20, mnemonic := "JSR", bytes := 3, cycles := 6,
                  can_cross_page := false, addr_mode := AddressingMode.Absolute })]
        []
        { cycle := 7, registers :=
            { pc := 0xc000, sp := 0xfd, a := 1, x := 2, y := 3, flags := 0x24 } }
        0xd000).1.registers.pc = 0xd000 ∧
    (Cpu.jsr
        [(0x20, { opcode := 0x20, mnemonic := "JSR", bytes := 3, cycles := 6,
                  can_cross_page := false, addr_mode := AddressingMode.Absolute })]
        []
        { cycle := 7, registers :=
            { pc := 0xc000, sp := 0xfd, a := 1, x := 2, y := 3, flags := 0x24 } }
        0xd000).1.cycle = 7 + 6 := by
  have h := jsr_frame_effect
    [(0x20, { opcode := 0x20, mnemonic := "JSR", bytes := 3, cycles := 6,
              can_cross_page := false, addr_mode := AddressingMode.Absolute })]
    []
    { cycle := 7, registers :=
        { pc := 0xc000, sp := 0xfd, a := 1, x := 2, y := 3, flags := 0x24 } }
    0xd000
    { opcode := 0x20, mnemonic := "JSR", bytes := 3, cycles := 6,
      can_cross_page := false, addr_mode := AddressingMode.Absolute }
    (by decide)
  exact ⟨h.1, h.2.1⟩

/-! Shared bit-arithmetic helper lemmas. -/

theorem and_255_eq_mod (n : Nat) : n &&& 255 = n % 256 := by
  have h := Nat.and_pow_two_sub_one_eq_mod n 8
  norm_num at h
  exact h

theorem and_ff00_eq {addr : Nat} (h : addr < 65536) :
    addr &&& 0xff00 = 256 * (addr / 256) := by
  apply Nat.eq_of_testBit_eq
  intro i
  have h1 : (0xff00 : Nat) = 255 <<< 8 := by
    norm_num [Nat.shiftLeft_eq]
  have h2 : 256 * (addr / 256) = (addr >>> 8) <<< 8 := by
    rw [Nat.shiftLeft_eq, Nat.shiftRight_eq_div_pow]
    norm_num
    ring
  rw [h1, h2, Nat.testBit_and, Nat.testBit_shiftLeft, Nat.testBit_shiftLeft,
    Nat.testBit_shiftRight]
  have h255 : (255 : Nat) = 2 ^ 8 - 1 := by norm_num
  rw [h255, Nat.testBit_two_pow_sub_one]
  by_cases hi : 8 ≤ i
  · by_cases hi16 : i < 16
    · have heq : 8 + (i - 8) = i := by omega
      simp [heq, decide_eq_true hi, decide_eq_true (show i - 8 < 8 by omega)]
    · have hbit : addr.testBit i = false := by
        apply Nat.testBit_lt_two_pow
        calc addr < 65536 := h
          _ = 2 ^ 16 := by norm_num
          _ ≤ 2 ^ i := Nat.pow_le_pow_right (by norm_num) (by omega)
      have heq : 8 + (i - 8) = i := by omega
      simp [hi, heq, hbit]
  · simp [hi]

/-- C2 counterexample: at address 0x20ff — whose low byte is 0xff but which
lies above the RAM region — the 16-bit access reads its high byte at
0x2100, not at the start of the same page (0x20ff &&& 0xff00 = 0x2000). -/
theorem high_addr_no_wrap_above_ram :
    Memory.get_high_addr 0x20ff = 0x20ff + 1 ∧
    Memory.get_high_addr 0x20ff ≠ 0x20ff &&& 0xff00 := by decide

/-- C2 amended: the same-page high-byte wrap of 16-bit accesses applies
exactly to addresses in the RAM window 0x0000–0x1FFF whose low byte is
0xFF; every other address with low byte 0xFF reads its high byte at
addr + 1 (mod 2^16).  Indirect addressing double-indirects through this
very `load16`, so its wrap quirk is likewise confined to pointers in the
RAM window. -/
theorem high_addr_wrap_ram_region_only (addr : Nat) (h16 : addr < 65536)
    (hlow : addr % 256 = 0xff) :
    (addr ≤ 0x1fff → Memory.get_high_addr addr = addr - 0xff) ∧
    (0x1fff < addr → Memory.get_high_addr addr = (addr + 1) % 65536) ∧
    (∀ (m : Memory) (reg : Registers),
        AddressingMode.load_operand .Indirect reg m =
          (cpu_load16 m (wsub16 reg.pc 2)).bind fun imm => cpu_load16 m imm) := by
  refine ⟨?_, ?_, ?_⟩
  · intro hram
    have hand : addr &&& 0xff = 0xff := by
      have := and_255_eq_mod addr
      omega
    have hmask : addr &&& 0xff00 = addr - 0xff := by
      have := and_ff00_eq h16
      omega
    simp [Memory.get_high_addr, hram, hand, hmask]
  · intro habove
    have : ¬ (addr ≤ 0x1fff ∧ addr &&& 0xff = 0xff) := by
      intro hc
      omega
    simp [Memory.get_high_addr, this]
  · intro m reg
    rfl

/-- Witness for C2 amended at address 0x01ff (in the RAM window): the high
byte is read at 0x0100, the start of the same page. -/
theorem high_addr_wrap_ram_region_only_witness :
    Memory.get_high_addr 0x01ff = 0x0100 :=
  (high_addr_wrap_ram_region_only 0x01ff (by decide) (by decide)).1 (by decide)

/-- C3 counterexample: address 0x4000 lies in 0x4000–0x4017 but
`Bus::cpu_map` rejects it as unmapped, for both supported cartridge
layouts, with or without a mapper. -/
theorem cpu_map_0x4000_unmapped :
    Bus.cpu_map { cartridge_rom_offset := 0xc000, has_mapper := false } 0x4000 =
      .error (.MemoryError "Memory access to unmapped vrom") ∧
    Bus.cpu_map { cartridge_rom_offset := 0x8000, has_mapper := false } 0x4000 =
      .error (.MemoryError "Memory access to unmapped vrom") ∧
    Bus.cpu_map { cartridge_rom_offset := 0xc000, has_mapper := true } 0x4000 =
      .error (.MemoryError "Memory access to unmapped vrom") := by decide

/-- C3 amended: inside 0x4000–0x4017 the bus maps only 0x4014 (to the OAM
DMA register, local offset 0) and 0x4016–0x4017 (to the joystick device,
local offset addr - 0x4016); every other address of the range — in
particular all of 0x4000–0x4013 and 0x4015 — fails with the
unmapped-address error, whatever the cartridge configuration. -/
theorem cpu_map_io_range (cfg : BusCfg) (addr : Nat)
    (h1 : 0x4000 ≤ addr) (h2 : addr ≤ 0x4017) :
    (addr = 0x4014 →
      Bus.cpu_map cfg addr = .ok (0, CpuDevice.cpuOamDmaReg)) ∧
    (0x4016 ≤ addr →
      Bus.cpu_map cfg addr = .ok (addr - 0x4016, CpuDevice.joystick)) ∧
    (addr ≠ 0x4014 → addr < 0x4016 →
      Bus.cpu_map cfg addr =
        .error (.MemoryError "Memory access to unmapped vrom")) := by
  unfold Bus.cpu_map
  refine ⟨?_, ?_, ?_⟩
  · intro h
    subst h
    rw [if_neg (by omega), if_neg (by omega), if_pos rfl]
  · intro h
    rw [if_neg (by omega), if_neg (by omega), if_neg (by omega),
      if_pos (by omega)]
  · intro hne hlt
    rw [if_neg (by omega), if_neg (by omega), if_neg hne, if_neg (by omega),
      if_neg (fun hc => absurd hc.1 (by omega)),
      if_neg (fun hc => absurd hc.1 (by omega))]

/-- Witness for C3 amended at a concrete configuration and address. -/
theorem cpu_map_io_range_witness :
    Bus.cpu_map { cartridge_rom_offset := 0xc000, has_mapper := false } 0x4016 =
      .ok (0, CpuDevice.joystick) :=
  (cpu_map_io_range { cartridge_rom_offset := 0xc000, has_mapper := false }
    0x4016 (by decide) (by decide)).2.1 (by decide)

/-- C4: the bounds check of the RAM-backed device is `addr > len`, so the
offset `addr = len` slips past it and the subsequent array index panics
(`none`) instead of returning the MemoryError the specification requires
for every out-of-range offset; offsets beyond `len` do error, and offsets
below `len` access the backing byte. -/
theorem mmr_index_panics_at_length :
    MemoryMappedRam.load [0] 1 = none ∧
    MemoryMappedRam.store [0] 1 5 = none ∧
    MemoryMappedRam.load [0] 2 =
      some (.error (.MemoryError "load out of range")) ∧
    MemoryMappedRam.store [0] 2 5 =
      some (.error (.MemoryError "store out of range")) ∧
    MemoryMappedRam.load [0] 0 = some (.ok 0) := by decide

/-- C6: for stack pointers in the 8-bit range, `stack_push` fails exactly
at pointer 0 (with the stack-overflow MemoryError) and `stack_pop` fails
exactly at the maximum pointer 0xFF (with the stack-underflow MemoryError);
in both failure cases memory and the pointer are returned unchanged — the
pointer is never wrapped. -/
theorem stack_push_pop_bounds (m : Memory) (sp v : Nat) (hsp : sp ≤ 0xff) :
    (resultIsOk (m.stack_push sp v).1 = false ↔ sp = 0) ∧
    (sp = 0 →
      m.stack_push sp v = (.error (.MemoryError "Stack Overflow"), m, sp)) ∧
    (resultIsOk (m.stack_pop sp).1 = false ↔ sp = 0xff) ∧
    (sp = 0xff →
      m.stack_pop sp = (.error (.MemoryError "Stack Underflow"), m, sp)) := by
  unfold Memory.stack_push Memory.stack_pop
  by_cases h0 : sp = 0
  · have hff : sp ≠ 0xff := by omega
    simp [h0, hff, resultIsOk]
  · by_cases hff : sp = 0xff
    · simp [h0, hff, resultIsOk]
    · simp [h0, hff, resultIsOk]

/-- Witness for C6: pushing at pointer 0 on the all-zero memory fails with
the stack-overflow error and leaves the state untouched. -/
theorem stack_push_pop_bounds_witness :
    zeroMemory.stack_push 0 7 =
      (.error (.MemoryError "Stack Overflow"), zeroMemory, 0) :=
  (stack_push_pop_bounds zeroMemory 0 7 (by decide)).2.1 rfl

/-- C9: the mapper id is assembled with `&` instead of `|`
(`((b6 & 0xf0) >> 4) & b7 & 0xf0`), which is always 0, so the
unsupported-mapper rejection is dead code: this header requests mapper 1
(per the iNES layout the code itself documents) yet `from_header` accepts
it, returning a cartridge whose `mapper` field is 0. -/
theorem from_header_accepts_nonzero_mapper :
    headerMapperId
        [0x4e, 0x45, 0x53, 0x1a, 1, 1, 0x10, 0, 0, 0, 0, 0, 0, 0, 0, 0] = 1 ∧
    Cartridge.from_header
        [0x4e, 0x45, 0x53, 0x1a, 1, 1, 0x10, 0, 0, 0, 0, 0, 0, 0, 0, 0] =
      .ok { num_prog_rom := 1, num_ppu_vrom := 1, num_ram := 0,
            mirror := .Horizontal, has_battery := false, has_trainer := false,
            mapper := 0, region := .NTSC } := by decide

/-! Helper lemmas for the biased bit set and the flag byte. -/

theorem bool_sanitize_absorb (a b c : Bool) :
    ((a && b || c) && b || c) = (a && b || c) := by
  cases a <;> cases b <;> cases c <;> rfl

theorem bit_get_eq_testBit (v p : Nat) : bit_get v p = v.testBit p := by
  unfold bit_get
  rw [Nat.one_shiftLeft]
  have h : v &&& 2 ^ p = if v.testBit p then 2 ^ p else 0 := by
    apply Nat.eq_of_testBit_eq
    intro i
    rw [Nat.testBit_and]
    by_cases hpi : p = i
    · subst hpi
      cases hv : v.testBit p <;> simp [hv, Nat.testBit_two_pow]
    · split <;> simp [Nat.testBit_two_pow, hpi]
  rw [h]
  cases hv : v.testBit p <;> simp [Nat.pos_iff_ne_zero.mp (Nat.two_pow_pos p)]

theorem sanitize_sanitize (s : BiasedBitSet) (x : Nat) :
    s.sanitize (s.sanitize x) = s.sanitize x := by
  unfold BiasedBitSet.sanitize
  apply Nat.eq_of_testBit_eq
  intro i
  rw [Nat.testBit_or, Nat.testBit_and, Nat.testBit_or, Nat.testBit_and]
  exact bool_sanitize_absorb _ _ _

theorem apply_sanitized (s : BiasedBitSet) (op : BOp) :
    (s.apply op).v = (s.apply op).sanitize (s.apply op).v := by
  cases op with
  | store x =>
      exact (sanitize_sanitize s x).symm
  | set idx val =>
      exact (sanitize_sanitize s _).symm
  | bias bit v =>
      exact (sanitize_sanitize
        { s with
            set0 := s.set0 &&& (255 ^^^ (((v &&& 1) ^^^ 1) <<< bit))
            set1 := s.set1 ||| ((v &&& 1) <<< bit) } s.v).symm

theorem runFrom_sanitized (ops : List BOp) (s : BiasedBitSet)
    (h : s.v = s.sanitize s.v) :
    (runFrom s ops).v = (runFrom s ops).sanitize (runFrom s ops).v := by
  induction ops generalizing s with
  | nil => exact h
  | cons op rest ih => exact ih (s.apply op) (apply_sanitized s op)

theorem shiftLeft_bit_testBit (c bit b : Nat) (hc : c ≤ 1) :
    (c <<< bit).testBit b = (decide (bit = b) && decide (c = 1)) := by
  rw [Nat.testBit_shiftLeft]
  rcases Nat.le_one_iff_eq_zero_or_eq_one.mp hc with rfl | rfl
  · simp
  · rw [show (1 : Nat) = 2 ^ 0 by norm_num, Nat.testBit_two_pow]
    by_cases hbb : bit = b
    · subst hbb
      simp
    · rcases Nat.lt_or_ge b bit with hlt | hge
      · simp [hbb, Nat.not_le.mpr hlt]
      · have hne : 0 ≠ b - bit := by omega
        simp [hbb, hge, hne]

theorem apply_set1_testBit (s : BiasedBitSet) (op : BOp) (b : Nat) :
    (s.apply op).set1.testBit b = (opBias1 op b || s.set1.testBit b) := by
  cases op with
  | store x => simp [BiasedBitSet.apply, BiasedBitSet.store, opBias1]
  | set idx val => simp [BiasedBitSet.apply, BiasedBitSet.set, opBias1]
  | bias bit v =>
      have hle : v &&& 1 ≤ 1 := Nat.and_le_right
      simp only [BiasedBitSet.apply, BiasedBitSet.bias, opBias1,
        Nat.testBit_or, shiftLeft_bit_testBit _ bit b hle]
      exact Bool.or_comm _ _

theorem apply_set0_testBit (s : BiasedBitSet) (op : BOp) (b : Nat)
    (hb : b < 8) :
    (s.apply op).set0.testBit b = (!opBias0 op b && s.set0.testBit b) := by
  cases op with
  | store x => simp [BiasedBitSet.apply, BiasedBitSet.store, opBias0]
  | set idx val => simp [BiasedBitSet.apply, BiasedBitSet.set, opBias0]
  | bias bit v =>
      have h255 : Nat.testBit 255 b = true := by
        rw [show (255 : Nat) = 2 ^ 8 - 1 by norm_num,
          Nat.testBit_two_pow_sub_one]
        simpa using hb
      have hle : v &&& 1 ≤ 1 := Nat.and_le_right
      have hw : (v &&& 1) ^^^ 1 ≤ 1 := by
        rcases Nat.le_one_iff_eq_zero_or_eq_one.mp hle with h | h <;> simp [h]
      simp only [BiasedBitSet.apply, BiasedBitSet.bias, opBias0,
        Nat.testBit_and, Nat.testBit_xor, h255,
        shiftLeft_bit_testBit ((v &&& 1) ^^^ 1) bit b hw]
      rcases Nat.le_one_iff_eq_zero_or_eq_one.mp hle with h | h <;>
        by_cases hbb : bit = b <;>
        simp [h, hbb, Bool.and_comm]

theorem everBiased1_cons (op : BOp) (rest : List BOp) (b : Nat) :
    everBiased1 (op :: rest) b = (opBias1 op b || everBiased1 rest b) := by
  simp [everBiased1]

theorem everBiased0_cons (op : BOp) (rest : List BOp) (b : Nat) :
    everBiased0 (op :: rest) b = (opBias0 op b || everBiased0 rest b) := by
  simp [everBiased0]

theorem runFrom_set1_testBit (ops : List BOp) (s : BiasedBitSet) (b : Nat) :
    (runFrom s ops).set1.testBit b = (everBiased1 ops b || s.set1.testBit b) := by
  induction ops generalizing s with
  | nil => simp [runFrom, everBiased1]
  | cons op rest ih =>
      show (runFrom (s.apply op) rest).set1.testBit b = _
      rw [ih, apply_set1_testBit, everBiased1_cons, ← Bool.or_assoc,
        Bool.or_comm (everBiased1 rest b) (opBias1 op b)]

theorem runFrom_set0_testBit (ops : List BOp) (s : BiasedBitSet) (b : Nat)
    (hb : b < 8) :
    (runFrom s ops).set0.testBit b =
      (!everBiased0 ops b && s.set0.testBit b) := by
  induction ops generalizing s with
  | nil => simp [runFrom, everBiased0]
  | cons op rest ih =>
      show (runFrom (s.apply op) rest).set0.testBit b = _
      rw [ih, apply_set0_testBit _ _ _ hb, everBiased0_cons, Bool.not_or,
        ← Bool.and_assoc,
        Bool.and_comm (!everBiased0 rest b) (!opBias0 op b), Bool.and_assoc]

/-- C8 counterexample: after biasing bit 3 to 1 and then re-biasing bit 3
to 0 — so that bit 3 is currently biased to 0 — storing 0 still reads bit
3 back as 1: the earlier 1-bias is sticky in `set1` and overrides the
later 0-bias. -/
theorem biased_bitset_rebias_reads_one :
    lastBias [BOp.bias 3 1, BOp.bias 3 0, BOp.store 0] 3 = some 0 ∧
    (runOps [BOp.bias 3 1, BOp.bias 3 0, BOp.store 0]).get 3 = true := by
  decide

/-- C8 amended: biases are sticky rather than current: after any sequence
of store/set/bias calls from the default state, a position ever biased to
1 reads back 1, and a position ever biased to 0 and never biased to 1
reads back 0, regardless of the values stored; concretely, biasing bit 3
to 0 and bit 5 to 1 and then storing 0b11011001 reads back 0b11110001. -/
theorem biased_bitset_sticky (ops : List BOp) (b : Nat) (hb : b < 8) :
    (everBiased1 ops b = true → (runOps ops).get b = true) ∧
    (everBiased0 ops b = true → everBiased1 ops b = false →
      (runOps ops).get b = false) ∧
    (runOps [BOp.bias 3 0, BOp.bias 5 1, BOp.store 0b11011001]).cast =
      0b11110001 := by
  have hsan := runFrom_sanitized ops BiasedBitSet.init (by decide)
  have h1 := runFrom_set1_testBit ops BiasedBitSet.init b
  have h0 := runFrom_set0_testBit ops BiasedBitSet.init b hb
  have hinit1 : BiasedBitSet.init.set1.testBit b = false := by
    simp [BiasedBitSet.init]
  have hinit0 : BiasedBitSet.init.set0.testBit b = true := by
    show Nat.testBit 255 b = true
    rw [show (255 : Nat) = 2 ^ 8 - 1 by norm_num,
      Nat.testBit_two_pow_sub_one]
    simpa using hb
  have hget : (runOps ops).get b = (runOps ops).v.testBit b :=
    bit_get_eq_testBit _ _
  have heq := congrArg (fun n => n.testBit b) hsan
  simp only [BiasedBitSet.sanitize, Nat.testBit_or, Nat.testBit_and] at heq
  refine ⟨?_, ?_, by decide⟩
  · intro hever
    have ht1 : (runOps ops).set1.testBit b = true := by
      rw [runOps, h1, hever, hinit1, Bool.true_or]
    rw [hget]
    rw [runOps] at ht1 ⊢
    rw [ht1, Bool.or_true] at heq
    exact heq
  · intro hever0 hever1
    have ht1 : (runOps ops).set1.testBit b = false := by
      rw [runOps, h1, hever1, hinit1, Bool.false_or]
    have ht0 : (runOps ops).set0.testBit b = false := by
      rw [runOps, h0, hever0, hinit0]
      rfl
    rw [hget]
    rw [runOps] at ht1 ht0 ⊢
    rw [ht1, ht0, Bool.or_false, Bool.and_false] at heq
    exact heq

/-- Witness for C8 amended at the claim's concrete sequence: bit 5, biased
to 1, reads back 1. -/
theorem biased_bitset_sticky_witness :
    (runOps [BOp.bias 3 0, BOp.bias 5 1, BOp.store 0b11011001]).get 5 =
      true :=
  (biased_bitset_sticky [BOp.bias 3 0, BOp.bias 5 1, BOp.store 0b11011001]
    5 (by decide)).1 (by decide)

/-! Helper lemmas for the flag byte and the ADC/SBC pipeline. -/

theorem Flag.posn_lt (f : Flag) : f.posn < 8 := by
  cases f <;> decide

theorem except_bind_ok {ε α β : Type} (x : α) (f : α → Except ε β) :
    (Except.ok x : Except ε α) >>= f = f x := rfl

theorem except_bind_error {ε α β : Type} (e : ε) (f : α → Except ε β) :
    (Except.error e : Except ε α) >>= f = Except.error e := rfl

theorem except_pure_eq {ε α : Type} (x : α) :
    (pure x : Except ε α) = Except.ok x := rfl

theorem bit_toggle_testBit (v st p i : Nat) (hp : p < 8) :
    (bit_toggle v st p).testBit i =
      if p = i then decide (st &&& 1 = 1)
      else (v.testBit i && decide (i < 8)) := by
  unfold bit_toggle
  rw [Nat.testBit_or, Nat.testBit_and, Nat.testBit_xor,
    shiftLeft_bit_testBit (st &&& 1) p i Nat.and_le_right,
    shiftLeft_bit_testBit 1 p i (Nat.le_refl 1),
    show (255 : Nat) = 2 ^ 8 - 1 by norm_num, Nat.testBit_two_pow_sub_one]
  by_cases hpi : p = i
  · subst hpi
    simp [Nat.lt_of_lt_of_le hp (Nat.le_refl 8) , hp]
  · by_cases hi8 : i < 8
    · simp [hpi, hi8]
    · simp [hpi, hi8]

theorem get_flag_set_flag (r : Registers) (f g : Flag) (b : Bool) :
    (r.set_flag f b).get_flag g = if f = g then b else r.get_flag g := by
  unfold Registers.set_flag Registers.get_flag
  rw [bit_get_eq_testBit, bit_get_eq_testBit,
    bit_toggle_testBit _ _ _ _ (Flag.posn_lt f)]
  by_cases hfg : f = g
  · subst hfg
    cases b <;> simp
  · have hposn : f.posn ≠ g.posn := by
      cases f <;> cases g <;> simp_all [Flag.posn]
    simp [hposn, hfg, decide_eq_true (Flag.posn_lt g)]

theorem set_flag_a (r : Registers) (f : Flag) (b : Bool) :
    (r.set_flag f b).a = r.a := rfl

theorem get_flags_after_quad (r : Registers) (zv : Nat) (cb vb : Bool)
    (nv : Nat) :
    ((((r.set_z zv).set_flag .C cb).set_flag .V vb).set_n nv).get_flag .C =
      cb ∧
    ((((r.set_z zv).set_flag .C cb).set_flag .V vb).set_n nv).get_flag .Z =
      (zv == 0) ∧
    ((((r.set_z zv).set_flag .C cb).set_flag .V vb).set_n nv).get_flag .V =
      vb ∧
    ((((r.set_z zv).set_flag .C cb).set_flag .V vb).set_n nv).get_flag .N =
      (nv &&& 0x80 != 0) ∧
    ((((r.set_z zv).set_flag .C cb).set_flag .V vb).set_n nv).a = r.a := by
  unfold Registers.set_z Registers.set_n
  refine ⟨?_, ?_, ?_, ?_, rfl⟩ <;>
    simp [get_flag_set_flag]

theorem pay_for_page_cross_registers (cpu : Cpu) (instr : Instruction)
    (addr : Nat) :
    (pay_for_page_cross cpu instr addr).registers = cpu.registers := by
  unfold pay_for_page_cross
  cases instr.can_cross_page <;> simp

theorem load_operand_eq_of (mode : AddressingMode) (r1 r2 : Registers)
    (m : Memory) (hpc : r1.pc = r2.pc) (ha : r1.a = r2.a)
    (hx : r1.x = r2.x) (hy : r1.y = r2.y) :
    mode.load_operand r1 m = mode.load_operand r2 m := by
  cases mode <;> simp [AddressingMode.load_operand, hpc, ha, hx, hy]

theorem fetch_operand_pair (c1 c2 : Cpu) (instr : Instruction) (m : Memory)
    (addr : Nat) :
    (∃ v, fetch_operand c1 instr m addr =
            .ok (pay_for_page_cross c1 instr addr, v) ∧
          fetch_operand c2 instr m addr =
            .ok (pay_for_page_cross c2 instr addr, v)) ∨
    (∃ e, fetch_operand c1 instr m addr = .error e ∧
          fetch_operand c2 instr m addr = .error e) := by
  unfold fetch_operand
  cases hmode : instr.addr_mode <;>
    first
      | exact Or.inl ⟨addr % 256, rfl, rfl⟩
      | cases hcl : cpu_load m addr with
        | error e =>
            exact Or.inr ⟨e, by simp [hcl, Except.map], by simp [hcl, Except.map]⟩
        | ok v =>
            exact Or.inl ⟨v, by simp [hcl, Except.map], by simp [hcl, Except.map]⟩

/-- C7: executing ADC or SBC from two CPU states that are identical except
for the value of the Decimal flag (bit 3 of the status byte) produces the
same outcome: the same error, or the same accumulator, memory, and
Carry/Zero/Overflow/Negative flags — the Decimal flag never alters the
binary arithmetic. -/
theorem adc_sbc_decimal_noninterference (instr : Instruction)
    (cpu1 cpu2 : Cpu) (m : Memory) (st : Nat)
    (hr : cpu2.registers =
      { cpu1.registers with flags := bit_toggle cpu1.registers.flags st 3 }) :
    sameOutcome (adc_execute instr cpu1 m) (adc_execute instr cpu2 m) ∧
    sameOutcome (sbc_execute instr cpu1 m) (sbc_execute instr cpu2 m) := by
  have hpc : cpu2.registers.pc = cpu1.registers.pc := by rw [hr]
  have ha : cpu2.registers.a = cpu1.registers.a := by rw [hr]
  have hx : cpu2.registers.x = cpu1.registers.x := by rw [hr]
  have hy : cpu2.registers.y = cpu1.registers.y := by rw [hr]
  have hload := load_operand_eq_of instr.addr_mode cpu2.registers
    cpu1.registers m hpc ha hx hy
  have hcarry : cpu2.registers.get_flag .C = cpu1.registers.get_flag .C := by
    rw [hr]
    unfold Registers.get_flag
    rw [bit_get_eq_testBit, bit_get_eq_testBit]
    show (bit_toggle cpu1.registers.flags st 3).testBit 0 =
      cpu1.registers.flags.testBit 0
    rw [bit_toggle_testBit _ _ _ _ (by norm_num)]
    simp
  constructor
  · simp only [adc_execute]
    rw [hload]
    cases hld : instr.addr_mode.load_operand cpu1.registers m with
    | error e => simp [sameOutcome, except_bind_error]
    | ok s0 =>
        rcases fetch_operand_pair cpu1 cpu2 instr m s0 with
          ⟨v, hf1, hf2⟩ | ⟨e, hf1, hf2⟩
        · have hp1 := pay_for_page_cross_registers cpu1 instr s0
          have hp2 := pay_for_page_cross_registers cpu2 instr s0
          rw [except_bind_ok, except_bind_ok, hf1, hf2]
          simp only [except_bind_ok, except_pure_eq, sameOutcome, hp1, hp2,
            ha, hcarry]
          simp [get_flags_after_quad]
        · rw [except_bind_ok, except_bind_ok, hf1, hf2]
          simp [sameOutcome, except_bind_error]
  · simp only [sbc_execute]
    rw [hload]
    cases hld : instr.addr_mode.load_operand cpu1.registers m with
    | error e => simp [sameOutcome, except_bind_error]
    | ok s0 =>
        rcases fetch_operand_pair cpu1 cpu2 instr m s0 with
          ⟨v, hf1, hf2⟩ | ⟨e, hf1, hf2⟩
        · have hp1 := pay_for_page_cross_registers cpu1 instr s0
          have hp2 := pay_for_page_cross_registers cpu2 instr s0
          rw [except_bind_ok, except_bind_ok, hf1, hf2]
          simp only [except_bind_ok, except_pure_eq, sameOutcome, hp1, hp2,
            ha, hcarry]
          simp [get_flags_after_quad]
        · rw [except_bind_ok, except_bind_ok, hf1, hf2]
          simp [sameOutcome, except_bind_error]

/-- Witness for C7: an immediate-mode ADC/SBC run from two concrete states
differing only in the Decimal flag. -/
theorem adc_sbc_decimal_noninterference_witness :
    sameOutcome
      (adc_execute
        { opcode := 0x69, mnemonic := "ADC", bytes := 2, cycles := 2,
          can_cross_page := false, addr_mode := AddressingMode.Immediate }
        { cycle := 0, registers :=
            { pc := 0x10, sp := 0xfd, a := 0x40, x := 0, y := 0,
              flags := 0x24 } }
        zeroMemory)
      (adc_execute
        { opcode := 0x69, mnemonic := "ADC", bytes := 2, cycles := 2,
          can_cross_page := false, addr_mode := AddressingMode.Immediate }
        { cycle := 0, registers :=
            { pc := 0x10, sp := 0xfd, a := 0x40, x := 0, y := 0,
              flags := 0x2c } }
        zeroMemory) ∧
    sameOutcome
      (sbc_execute
        { opcode := 0x69, mnemonic := "ADC", bytes := 2, cycles := 2,
          can_cross_page := false, addr_mode := AddressingMode.Immediate }
        { cycle := 0, registers :=
            { pc := 0x10, sp := 0xfd, a := 0x40, x := 0, y := 0,
              flags := 0x24 } }
        zeroMemory)
      (sbc_execute
        { opcode := 0x69, mnemonic := "ADC", bytes := 2, cycles := 2,
          can_cross_page := false, addr_mode := AddressingMode.Immediate }
        { cycle := 0, registers :=
            { pc := 0x10, sp := 0xfd, a := 0x40, x := 0, y := 0,
              flags := 0x2c } }
        zeroMemory) :=
  adc_sbc_decimal_noninterference
    { opcode := 0x69, mnemonic := "ADC", bytes := 2, cycles := 2,
      can_cross_page := false, addr_mode := AddressingMode.Immediate }
    { cycle := 0, registers :=
        { pc := 0x10, sp := 0xfd, a := 0x40, x := 0, y := 0,
          flags := 0x24 } }
    { cycle := 0, registers :=
        { pc := 0x10, sp := 0xfd, a := 0x40, x := 0, y := 0,
          flags := 0x2c } }
    zeroMemory 1 (by decide)

end IronNes
